import Mathlib

/-!
Verification development for the 4xidraw-server repository.

The development shallowly embeds the relevant source functions:

* `src/lib/gcode_simulator.py` — the G-code time/bounds estimator
  (`GCodeSimulator.estimate_time` and its helpers), modelled over exact
  arithmetic: parsed coordinates are rationals, kinematic quantities are
  real numbers, and every Python operation that can raise (float parsing,
  division by zero inside `normalize` and the junction computation, the
  trapezoidal solver's final `raise`) is modelled with `Option`, `none`
  standing for the raised exception.
* `src/serial_device/xidraw_device.py` — the dispatcher worker loop
  (`_grbl_sender_loop`), the nice-size policy, and the `command`/`query`
  read loops, modelled over explicit lists of buffer-occupancy
  observations and serial reads.
* `src/serial_device/xidraw_finder.py` / `src/xidraw_finder.py` — the
  port candidate test `is_compatible_device`.
-/

/-! ## Python string primitives (exact models over `List Char`) -/

/-- Characters stripped by Python's `str.strip()` with no argument. -/
def pySpace (c : Char) : Bool :=
  c == ' ' || c == '\t' || c == '\n' || c == '\r' || c == '\x0b' || c == '\x0c'

/-- Model of Python `str.strip()`: drop whitespace from both ends. -/
def stripL (l : List Char) : List Char :=
  ((l.dropWhile pySpace).reverse.dropWhile pySpace).reverse

/-- ASCII uppercase of one character, as Python `str.upper()` acts on ASCII. -/
def pyUpC (c : Char) : Char :=
  if 97 ≤ c.toNat ∧ c.toNat ≤ 122 then Char.ofNat (c.toNat - 32) else c

/-- ASCII lowercase of one character, as Python `str.lower()` acts on ASCII. -/
def pyLowC (c : Char) : Char :=
  if 65 ≤ c.toNat ∧ c.toNat ≤ 90 then Char.ofNat (c.toNat + 32) else c

/-- Model of Python `str.upper()` (ASCII). -/
def upperL (l : List Char) : List Char := l.map pyUpC

/-- Model of Python `str.lower()` (ASCII). -/
def lowerL (l : List Char) : List Char := l.map pyLowC

/-- `startsL p l` holds when `p` is a leading segment of `l`
(Python `str.startswith`). -/
def startsL : List Char → List Char → Bool
  | [], _ => true
  | _ :: _, [] => false
  | a :: as, b :: bs => a == b && startsL as bs

/-- `listHas needle hay` models Python's substring test `needle in hay`. -/
def listHas (needle : List Char) : List Char → Bool
  | [] => startsL needle []
  | c :: rest => startsL needle (c :: rest) || listHas needle rest

/-- Model of Python `str.split("\n")` (exactly mirrors `str.split` with an
explicit separator: no pruning of empty pieces). -/
def splitNL : List Char → List (List Char)
  | [] => [[]]
  | c :: r =>
    if c == '\n' then [] :: splitNL r
    else
      match splitNL r with
      | [] => [[c]]
      | h :: t => (c :: h) :: t

/-! ## Numeric-literal parsing (the `float(...)` calls on regex matches) -/

/-- Numeric value of a digit list, most significant first. -/
def digsVal (l : List Char) : ℕ :=
  l.foldl (fun a c => 10 * a + (c.toNat - 48)) 0

/-- All characters are ASCII digits. -/
def allDigits (l : List Char) : Bool := l.all Char.isDigit

/-- Split at the first `'.'`; the second component is `none` when there is
no dot. -/
def splitDot : List Char → List Char × Option (List Char)
  | [] => ([], none)
  | c :: r =>
    if c == '.' then ([], some r)
    else
      match splitDot r with
      | (a, b) => (c :: a, b)

/-- Python `float()` on an unsigned token drawn from the regex class
`[-\d.]+`: digits with at most one dot and at least one digit; `none`
models the `ValueError` Python raises otherwise. -/
def pyFloatCore (l : List Char) : Option ℚ :=
  match splitDot l with
  | (intPart, none) =>
    if intPart ≠ [] ∧ allDigits intPart then some (digsVal intPart) else none
  | (intPart, some frac) =>
    if (intPart ≠ [] ∨ frac ≠ []) ∧ allDigits intPart ∧ allDigits frac then
      some ((digsVal intPart : ℚ) + (digsVal frac : ℚ) / 10 ^ frac.length)
    else none

/-- Python `float()` on a token from the class `[-\d.]+` (optional leading
minus sign). -/
def pyFloatQ : List Char → Option ℚ
  | [] => none
  | c :: r => if c == '-' then (pyFloatCore r).map (fun q => -q) else pyFloatCore (c :: r)

/-- Character class of the regexes `X([-\d.]+)`, `Y(...)`, `F(...)`,
`P(...)`, `S(...)`. -/
def numClass (c : Char) : Bool := c.isDigit || c == '-' || c == '.'

/-- Leftmost match of the regex `c([-\d.]+)`: find the first occurrence of
`c` followed by at least one class character and return the maximal run
(`re.search` semantics for this pattern). -/
def findTok (c : Char) : List Char → Option (List Char)
  | [] => none
  | a :: r =>
    if a == c then
      match r.takeWhile numClass with
      | [] => findTok c r
      | run => some run
    else findTok c r

/-- Value of an axis word: absent word keeps the default, a present word is
converted with `float()` (`none` = `ValueError`). -/
def coordVal (c : Char) (l : List Char) (dflt : ℚ) : Option ℚ :=
  match findTok c l with
  | none => some dflt
  | some tok => pyFloatQ tok

/-! ## Data model of the estimator -/

/-- `GrblSettings` from `gcode_simulator.py`. -/
structure GrblSettings where
  max_rate_x : ℝ
  max_rate_y : ℝ
  max_accel_x : ℝ
  max_accel_y : ℝ
  junction_deviation : ℝ

/-- The settings used in the repository's `__main__` example and in the
specification's concrete scenarios. -/
noncomputable def defaultSettings : GrblSettings :=
  { max_rate_x := 3000, max_rate_y := 3000
    max_accel_x := 800, max_accel_y := 800
    junction_deviation := 1 / 100 }

/-- A 2-D point; parsed G-code coordinates are exact rationals. -/
structure PtQ where
  x : ℚ
  y : ℚ
  deriving DecidableEq

/-- `Point.__sub__`. -/
def PtQ.sub (a b : PtQ) : PtQ := ⟨a.x - b.x, a.y - b.y⟩

/-- `Point.length`. -/
noncomputable def PtQ.length (p : PtQ) : ℝ := Real.sqrt ((p.x : ℝ) ^ 2 + (p.y : ℝ) ^ 2)

/-- The x component of `Point.normalize` (a total real-number rendering;
call sites guard the zero-length case separately, where Python raises). -/
noncomputable def PtQ.normX (p : PtQ) : ℝ := (p.x : ℝ) / p.length

/-- The y component of `Point.normalize`. -/
noncomputable def PtQ.normY (p : PtQ) : ℝ := (p.y : ℝ) / p.length

/-- `Point.dot_product` of the two normalized vectors, as used in
`calculate_junction_vmax`. -/
noncomputable def PtQ.dotn (a b : PtQ) : ℝ := a.normX * b.normX + a.normY * b.normY

/-- `Bounds`; the `float('inf')` / `float('-inf')` sentinels are the top
and bottom elements of the extended rationals. -/
structure BoundsQ where
  min_x : WithTop ℚ
  max_x : WithBot ℚ
  min_y : WithTop ℚ
  max_y : WithBot ℚ
  deriving DecidableEq

/-- The initial `Bounds()` value. -/
def BoundsQ.start : BoundsQ := ⟨⊤, ⊥, ⊤, ⊥⟩

/-- `Bounds.update`. -/
def BoundsQ.update (b : BoundsQ) (p : PtQ) : BoundsQ :=
  ⟨min b.min_x (p.x : ℚ), max b.max_x (p.x : ℚ),
   min b.min_y (p.y : ℚ), max b.max_y (p.y : ℚ)⟩

/-- `is_motion_command`. -/
def is_motion_command (l : List Char) : Bool :=
  startsL (r"G0 ".data) l || startsL (r"G1 ".data) l ||
  startsL (r"G00 ".data) l || startsL (r"G01 ".data) l

/-- `is_rapid_motion_command`. -/
def is_rapid_motion_command (l : List Char) : Bool :=
  startsL (r"G0 ".data) l || startsL (r"G00 ".data) l

/-! ## The junction and per-direction limit computations -/

/-- `GCodeSimulator.calculate_junction_vmax`.  Zero-length inputs return
velocity `0`; otherwise `θ = acos(u₁·u₂)` and the source divides
`junction_deviation` by `sin(θ/2)`, which in Python raises
`ZeroDivisionError` when `sin(θ/2) = 0` (collinear segments) — modelled as
`none`.  The returned speed is in mm/s (per the source docstring). -/
noncomputable def calculate_junction_vmax (s : GrblSettings) (m1 m2 : PtQ) : Option ℝ :=
  if m1.length = 0 ∨ m2.length = 0 then some 0
  else
    let theta := Real.arccos (PtQ.dotn m1 m2)
    let sh := Real.sin (theta / 2)
    if sh = 0 then none
    else some (Real.sqrt (min s.max_accel_x s.max_accel_y * (s.junction_deviation / sh)))

/-- `GCodeSimulator.max_speed_along_motion` (mm/min). -/
noncomputable def max_speed_along_motion (s : GrblSettings) (m : PtQ) : ℝ :=
  let ax := |m.normX|
  let ay := |m.normY|
  let mx := max ax ay
  Real.sqrt ((s.max_rate_x * ax / mx) ^ 2 + (s.max_rate_y * ay / mx) ^ 2)

/-- `GCodeSimulator.max_accel_along_motion` (mm/s²). -/
noncomputable def max_accel_along_motion (s : GrblSettings) (m : PtQ) : ℝ :=
  let ax := |m.normX|
  let ay := |m.normY|
  let mx := max ax ay
  Real.sqrt ((s.max_accel_x * ax / mx) ^ 2 + (s.max_accel_y * ay / mx) ^ 2)

/-! ## The trapezoidal solver -/

/-- Core of `GCodeSimulator._calculate_motion_time` after the `/= 60.0`
unit conversions: velocities in mm/s, distance in mm, time in seconds.
`none` models the final `raise ValueError`. -/
noncomputable def motionTimeCore (v0 v1 vcap a L : ℝ) : Option (ℝ × ℝ) :=
  let daccA := (vcap ^ 2 - v0 ^ 2) / (2 * a)
  let ddecA := (vcap ^ 2 - v1 ^ 2) / (2 * a)
  if daccA + ddecA ≤ L then
    some ((vcap - v0) / a + (L - (daccA + ddecA)) / vcap + (vcap - v1) / a, v1)
  else
    let psq := (v0 ^ 2 + v1 ^ 2) / 2 + a * L
    let vp0 := if psq < 0 then 0 else Real.sqrt psq
    let vp := if vp0 > vcap then vcap else vp0
    let dacc := (vp ^ 2 - v0 ^ 2) / (2 * a)
    let ddec := (vp ^ 2 - v1 ^ 2) / (2 * a)
    if |dacc + ddec - L| < 1 / 1000000 then
      some ((vp - v0) / a + (vp - v1) / a, v1)
    else if dacc + ddec > L ∧ v0 > v1 then
      let ve := Real.sqrt (max 0 (v0 ^ 2 - 2 * a * L))
      some ((v0 - ve) / a, ve)
    else if dacc + ddec > L ∧ v0 < v1 then
      let ve := Real.sqrt (max 0 (v0 ^ 2 + 2 * a * L))
      some ((ve - v0) / a, ve)
    else none

/-- `GCodeSimulator._calculate_motion_time`: velocities arrive in mm/min,
are divided by 60, and the returned end velocity is converted back. -/
noncomputable def calculate_motion_time (motion : PtQ) (v0 v1 vmax a : ℝ) :
    Option (ℝ × ℝ) :=
  (motionTimeCore (v0 / 60) (v1 / 60) (vmax / 60) a motion.length).map
    (fun p => (p.1, p.2 * 60))

/-! ## Per-line processing of `estimate_time` -/

/-- `GCodeSimulator._parse_dwell` (seconds; `P` is taken as seconds per the
source's GRBL-0.9 comment). -/
noncomputable def parse_dwell (l : List Char) : Option ℝ :=
  match findTok 'P' l with
  | some tok => (pyFloatQ tok).map (fun q => (Rat.cast q : ℝ))
  | none =>
    match findTok 'S' l with
    | some tok => (pyFloatQ tok).map (fun q => (Rat.cast q : ℝ))
    | none => some 0

/-- `GCodeSimulator._parse_coord`: target position and feed; absent words
carry the current values forward.  The feed slot is a real number because
`estimate_time` passes its running `velocity` into it. -/
noncomputable def parse_coord (l : List Char) (pos : PtQ) (feed : ℝ) :
    Option (PtQ × ℝ) :=
  (coordVal 'X' l pos.x).bind fun x =>
  (coordVal 'Y' l pos.y).bind fun y =>
  (match findTok 'F' l with
   | none => some feed
   | some tok => (pyFloatQ tok).map (fun q => (Rat.cast q : ℝ))).map fun f => (⟨x, y⟩, f)

/-- The estimator's running state inside `estimate_time`: `position` and
`velocity` (the latter doubling, in the source, as the inherited feed),
accumulated time, bounds, and — for observability — the list of
cruise-cap feeds (`target_feed` after the rapid/min adjustment) used by
each executed motion. -/
structure SimState where
  position : PtQ
  velocity : ℝ
  totalTime : ℝ
  bounds : BoundsQ
  feeds : List ℝ

/-- The state at the top of `estimate_time`. -/
noncomputable def initSimState : SimState :=
  { position := ⟨0, 0⟩, velocity := 0, totalTime := 0
    bounds := BoundsQ.start, feeds := [] }

/-- The `next_pos` computation of `estimate_time` (line 274): parse the
next line from the target only when it is a non-empty motion command. -/
noncomputable def nextPosOf (target : PtQ) (tfeed : ℝ) (nxt : Option (List Char)) :
    Option PtQ :=
  match nxt with
  | none => some target
  | some raw =>
    let nl := upperL (stripL raw)
    if nl = [] then some target
    else if is_motion_command nl then (parse_coord nl target tfeed).map Prod.fst
    else some target

/-- One iteration of the `estimate_time` loop body for the line `raw`,
with `nxt` the following raw line when one exists.  `none` models any
exception the Python code would raise (bad numeral, zero-length motion
normalisation, collinear junction, solver fallback). -/
noncomputable def processLine (s : GrblSettings) (st : SimState) (raw : List Char)
    (nxt : Option (List Char)) : Option SimState :=
  let line := upperL (stripL raw)
  if line = [] then some st
  else if startsL ([';']) line || startsL (['(']) line then some st
  else if is_motion_command line then
    (parse_coord line st.position st.velocity).bind fun pr =>
    (nextPosOf pr.1 pr.2 nxt).bind fun nextPos =>
    let bounds2 := st.bounds.update pr.1
    let motion := PtQ.sub pr.1 st.position
    if motion.length = 0 then none
    else
      let nextMotion := PtQ.sub nextPos pr.1
      let maxTF := max_speed_along_motion s motion
      let maxTA := max_accel_along_motion s motion
      let tf := if is_rapid_motion_command line || pr.2 ≤ 0 then maxTF else min pr.2 maxTF
      (calculate_junction_vmax s motion nextMotion).bind fun jv =>
      let endV := min tf jv
      (calculate_motion_time motion st.velocity endV tf maxTA).bind fun res =>
      let realV := if res.2 - endV < -(1 / 1000000 : ℝ) then endV else res.2
      some { position := pr.1, velocity := realV, totalTime := st.totalTime + res.1
             bounds := bounds2, feeds := st.feeds ++ [tf] }
  else if listHas (r"G4".data) line then
    (parse_dwell line).bind fun d =>
    some { st with totalTime := st.totalTime + d }
  else some st

/-- Lookahead value for the first element of a line list: the head of the
remainder, or the fallback `k` once the list runs out. -/
def headOr (rest : List (List Char)) (k : Option (List Char)) : Option (List Char) :=
  match rest with
  | [] => k
  | r :: _ => some r

/-- Process a list of lines where `k` is the line, if any, that follows
the whole list in the full program (the loop peeks `lines[i+1]`). -/
noncomputable def processLinesFrom (s : GrblSettings) :
    SimState → List (List Char) → Option (List Char) → Option SimState
  | st, [], _ => some st
  | st, l :: rest, k =>
    (processLine s st l (headOr rest k)).bind fun st' =>
    processLinesFrom s st' rest k

/-- The full `estimate_time` loop over the split lines. -/
noncomputable def processLines (s : GrblSettings) (st : SimState)
    (lines : List (List Char)) : Option SimState :=
  processLinesFrom s st lines none

/-- The `estimate_time` loop over an already-split line list, returning
`(total_time, bounds)`; `none` models an uncaught exception. -/
noncomputable def estimate_lines (s : GrblSettings) (lines : List (List Char)) :
    Option (ℝ × BoundsQ) :=
  (processLines s initSimState lines).map fun st => (st.totalTime, st.bounds)

/-- `GCodeSimulator.estimate_time`: strip, split on newlines, run the
loop. -/
noncomputable def estimate_time (s : GrblSettings) (gcode : String) :
    Option (ℝ × BoundsQ) :=
  estimate_lines s (splitNL (stripL gcode.data))

/-- The feed-trace variant of `estimate_time`: the cruise-cap feed used by
each executed motion, in program order. -/
noncomputable def estimate_feeds (s : GrblSettings) (gcode : String) :
    Option (List ℝ) :=
  (processLines s initSimState (splitNL (stripL gcode.data))).map
    fun st => st.feeds

/-! ## Dispatcher worker (`xidraw_device.py`) -/

/-- `GRBL_BUFFER_NICE_SIZE`. -/
def GRBL_BUFFER_NICE_SIZE : ℕ := 16

/-- `GRBL_BUFFER_NICE_SIZE_BLOCKING`. -/
def GRBL_BUFFER_NICE_SIZE_BLOCKING : ℕ := 2

/-- `XidrawDevice.buffer_nice_size_for_command`. -/
def buffer_nice_size_for_command (cmd : String) : ℕ :=
  if startsL (r"M3".data) (stripL cmd.data) then GRBL_BUFFER_NICE_SIZE_BLOCKING
  else GRBL_BUFFER_NICE_SIZE

/-- How a dequeued command's gate opened.  `fits k`: the wait loop's
`break` fired because occupancy `k ≤ nice` was observed.  `stopped last`:
the `running` flag dropped during the wait (the observation stream ended),
the inner `while self.running` condition failed, and the loop exited with
`last` the most recent occupancy observed in this wait (if any poll
happened).  In both cases the source then writes the command:
`self.command(command)` follows the wait loop unconditionally. -/
inductive SendGate where
  | fits : ℕ → SendGate
  | stopped : Option ℕ → SendGate
  deriving DecidableEq

/-- The inner wait of `_grbl_sender_loop`: poll occupancies from the
stream until one is at most `nice` (the `break`), or until the stream ends
(the `running` flag dropping mid-wait); `last` threads the most recent
occupancy observed in this wait.  Returns the gate and the remaining
stream. -/
def waitForSpot (nice : ℕ) (last : Option ℕ) : List ℕ → SendGate × List ℕ
  | [] => (SendGate.stopped last, [])
  | o :: rest =>
    if o ≤ nice then (SendGate.fits o, rest) else waitForSpot nice (some o) rest

/-- `_grbl_sender_loop` over a queued command list and an occupancy
observation stream: each dequeued command waits for its nice-size and is
then written unconditionally — also when the `running` flag dropped
mid-wait, in which case the outer loop exits afterwards and the rest of
the queue stays unsent.  The result pairs each written command with the
gate under which it was written. -/
def senderLoop : List String → List ℕ → List (String × SendGate)
  | [], _ => []
  | c :: cs, obs =>
    match waitForSpot (buffer_nice_size_for_command c) none obs with
    | (SendGate.fits k, rest) => (c, SendGate.fits k) :: senderLoop cs rest
    | (SendGate.stopped last, _) => [(c, SendGate.stopped last)]

/-! ## Controller `command` / `query` read loops -/

/-- `XidrawDevice.timeout` (seconds). -/
def deviceTimeout : ℕ := 100

/-- The empty string (a read that timed out at the serial layer). -/
def emptyS : String := ""

/-- Model of Python `str.strip()` on `String`. -/
def stripS (s : String) : String := String.mk (stripL s.data)

/-- Observable outcome of one `command`/`query` call: `okDone` — `command`
saw `ok` and returned; `gotData` — `query` saw `ok` and returned the
joined collected lines; `timeoutQuit` — `command` exhausted its read
budget, printed `GRBL serial Timeout` and called `sys.exit()`; `pyNone` —
`query` exhausted its read budget and fell off the loop, returning
Python's `None`. -/
inductive DevOutcome where
  | okDone : DevOutcome
  | gotData : String → DevOutcome
  | timeoutQuit : DevOutcome
  | pyNone : DevOutcome
  deriving DecidableEq

/-- Python `'\n'.join`. -/
def joinNL : List String → String
  | [] => emptyS
  | [a] => a
  | a :: r => a ++ "\n" ++ joinNL r

/-- The read loop of `XidrawDevice.command`, with `n` reads remaining. -/
def commandGo : ℕ → List String → DevOutcome
  | 0, _ => .timeoutQuit
  | n + 1, rs =>
    if stripS (rs.headD emptyS) = "ok" then .okDone else commandGo n rs.tail

/-- `XidrawDevice.command` against a stream of raw serial reads (reads
beyond the stream are timed-out empty reads). -/
def commandModel (reads : List String) : DevOutcome :=
  commandGo (deviceTimeout * 5) reads

/-- The read loop of `XidrawDevice.query`: collect every non-`ok` chunk
(empty ones included). -/
def queryGo : ℕ → List String → List String → DevOutcome
  | 0, _, _ => .pyNone
  | n + 1, rs, acc =>
    let m := stripS (rs.headD emptyS)
    if m = "ok" then .gotData (joinNL acc) else queryGo n rs.tail (acc ++ [m])

/-- `XidrawDevice.query` against a stream of raw serial reads. -/
def queryModel (reads : List String) : DevOutcome :=
  queryGo (deviceTimeout * 5) reads []

/-! ## Port probe (`is_compatible_device`, identical in both variants) -/

/-- The `device`/`description` pair of a `ListPortInfo`. -/
structure PortInfo where
  description : String
  device : String

/-- `is_compatible_device` from `xidraw_finder.py`. -/
def is_compatible_device (p : PortInfo) : Bool :=
  let d := lowerL p.description.data
  let dev := lowerL p.device.data
  listHas (r"usb".data) d || listHas (r"arduino".data) d ||
  listHas (r"arduino".data) dev || listHas (r"ttyUSB".data) dev

/-! ## Concrete scenario inputs -/

/-- The G-code program of the specification's first concrete scenario. -/
def c4prog : String := "G0 X100 Y0"

/-- The program exercising feed inheritance: a fed motion, a dwell, then a
feedless motion. -/
def c5prog : String := "G1 X30 Y0 F600" ++ "\n" ++ "G4 P1" ++ "\n" ++ "G1 X30 Y40"

/-- The barrier command of the specification's dispatcher scenario. -/
def m3cmd : String := "M3 S90\n"

/-- The probe input of C8: a port at `/dev/ttyUSB0` whose description
mentions neither "usb" nor "arduino". -/
def ttyUsbPort : PortInfo := { description := "n/a", device := "/dev/ttyUSB0" }

/-- The zero-length motion line of C9's witness. -/
def c9line : List Char := (r"G1 X0 Y0").data

/-! ## Evaluation helpers -/

/-- Square-root evaluation at a recognised square. -/
lemma sqrtEval (a b : ℝ) (hb : 0 ≤ b) (h : b ^ 2 = a) : Real.sqrt a = b := by
  rw [← h, Real.sqrt_sq hb]

/-- Length evaluation at a recognised square. -/
lemma lenEval (x y : ℚ) (r : ℝ) (hr : 0 ≤ r) (h : (x : ℝ) ^ 2 + (y : ℝ) ^ 2 = r ^ 2) :
    PtQ.length ⟨x, y⟩ = r := by
  show Real.sqrt ((x : ℝ) ^ 2 + (y : ℝ) ^ 2) = r
  rw [h, Real.sqrt_sq hr]

lemma len_x0 (c : ℚ) (hc : 0 ≤ c) : PtQ.length ⟨c, 0⟩ = (c : ℝ) :=
  lenEval c 0 c (by exact_mod_cast hc) (by push_cast; ring)

lemma len_0y (c : ℚ) (hc : 0 ≤ c) : PtQ.length ⟨0, c⟩ = (c : ℝ) :=
  lenEval 0 c c (by exact_mod_cast hc) (by push_cast; ring)

lemma normX_x0 (c : ℚ) (hc : 0 < c) : PtQ.normX ⟨c, 0⟩ = 1 := by
  show (c : ℝ) / PtQ.length ⟨c, 0⟩ = 1
  rw [len_x0 c hc.le]
  have : (c : ℝ) ≠ 0 := by exact_mod_cast hc.ne'
  field_simp

lemma normY_x0 (c : ℚ) : PtQ.normY ⟨c, 0⟩ = 0 := by
  show ((0 : ℚ) : ℝ) / PtQ.length ⟨c, 0⟩ = 0
  simp

lemma normX_0y (c : ℚ) : PtQ.normX ⟨0, c⟩ = 0 := by
  show ((0 : ℚ) : ℝ) / PtQ.length ⟨0, c⟩ = 0
  simp

lemma normY_0y (c : ℚ) (hc : 0 < c) : PtQ.normY ⟨0, c⟩ = 1 := by
  show (c : ℝ) / PtQ.length ⟨0, c⟩ = 1
  rw [len_0y c hc.le]
  have : (c : ℝ) ≠ 0 := by exact_mod_cast hc.ne'
  field_simp

lemma normX_negx0 (c : ℚ) (hc : 0 < c) : PtQ.normX ⟨-c, 0⟩ = -1 := by
  show ((-c : ℚ) : ℝ) / PtQ.length ⟨-c, 0⟩ = -1
  have hl : PtQ.length ⟨-c, 0⟩ = (c : ℝ) :=
    lenEval (-c) 0 c (by exact_mod_cast hc.le) (by push_cast; ring)
  rw [hl]
  have : (c : ℝ) ≠ 0 := by exact_mod_cast hc.ne'
  push_cast
  field_simp

lemma len_x0_ne (c : ℚ) (hc : 0 < c) : PtQ.length ⟨c, 0⟩ ≠ 0 := by
  rw [len_x0 c hc.le]; exact_mod_cast hc.ne'

lemma len_0y_ne (c : ℚ) (hc : 0 < c) : PtQ.length ⟨0, c⟩ ≠ 0 := by
  rw [len_0y c hc.le]; exact_mod_cast hc.ne'

lemma dotn_10_10 : PtQ.dotn ⟨10, 0⟩ ⟨10, 0⟩ = 1 := by
  show PtQ.normX ⟨10, 0⟩ * PtQ.normX ⟨10, 0⟩ + PtQ.normY ⟨10, 0⟩ * PtQ.normY ⟨10, 0⟩ = 1
  rw [normX_x0 10 (by norm_num), normY_x0 10]
  ring

lemma dotn_10_n10 : PtQ.dotn ⟨10, 0⟩ ⟨-10, 0⟩ = -1 := by
  show PtQ.normX ⟨10, 0⟩ * PtQ.normX ⟨-10, 0⟩ +
    PtQ.normY ⟨10, 0⟩ * PtQ.normY ⟨-10, 0⟩ = -1
  rw [normX_x0 10 (by norm_num), normX_negx0 10 (by norm_num), normY_x0 10]
  ring

lemma dotn_10_0_10 : PtQ.dotn ⟨10, 0⟩ ⟨0, 10⟩ = 0 := by
  show PtQ.normX ⟨10, 0⟩ * PtQ.normX ⟨0, 10⟩ +
    PtQ.normY ⟨10, 0⟩ * PtQ.normY ⟨0, 10⟩ = 0
  rw [normX_x0 10 (by norm_num), normX_0y 10, normY_x0 10]
  ring

lemma len_n10_ne : PtQ.length ⟨-10, 0⟩ ≠ 0 := by
  have hl : PtQ.length ⟨-10, 0⟩ = (10 : ℝ) :=
    lenEval (-10) 0 10 (by norm_num) (by push_cast; ring)
  rw [hl]; norm_num

lemma jv_collinear : calculate_junction_vmax defaultSettings ⟨10, 0⟩ ⟨10, 0⟩ = none := by
  unfold calculate_junction_vmax
  rw [if_neg, if_pos]
  · rw [dotn_10_10, Real.arccos_one]
    norm_num
  · push_neg
    exact ⟨len_x0_ne 10 (by norm_num), len_x0_ne 10 (by norm_num)⟩

lemma jv_reversal :
    calculate_junction_vmax defaultSettings ⟨10, 0⟩ ⟨-10, 0⟩ = some (Real.sqrt 8) := by
  unfold calculate_junction_vmax
  rw [if_neg, if_neg]
  · rw [dotn_10_n10, Real.arccos_neg_one]
    have hs : Real.sin (Real.pi / 2) = 1 := Real.sin_pi_div_two
    simp only [defaultSettings, hs]
    norm_num
  · rw [dotn_10_n10, Real.arccos_neg_one, Real.sin_pi_div_two]
    norm_num
  · push_neg
    exact ⟨len_x0_ne 10 (by norm_num), len_n10_ne⟩

lemma jv_perp :
    calculate_junction_vmax defaultSettings ⟨10, 0⟩ ⟨0, 10⟩ =
      some (Real.sqrt (8 * Real.sqrt 2)) := by
  have hq : Real.pi / 2 / 2 = Real.pi / 4 := by ring
  unfold calculate_junction_vmax
  rw [if_neg, if_neg]
  · rw [dotn_10_0_10, Real.arccos_zero, hq, Real.sin_pi_div_four]
    simp only [defaultSettings, min_self, inf_idem]
    congr 1
    congr 1
    have h2 : Real.sqrt 2 ^ 2 = 2 := Real.sq_sqrt (by norm_num)
    have h2p : (0 : ℝ) < Real.sqrt 2 := by positivity
    field_simp
    linear_combination (-800 : ℝ) * h2
  · rw [dotn_10_0_10, Real.arccos_zero, hq, Real.sin_pi_div_four]
    positivity
  · push_neg
    exact ⟨len_x0_ne 10 (by norm_num), len_0y_ne 10 (by norm_num)⟩

/-- C1: the claim says that for non-zero-length consecutive segments the
junction velocity is effectively unlimited at angle 0 and zero at angle π.
The code instead divides `junction_deviation` by `sin(0) = 0` on collinear
segments (a `ZeroDivisionError`, modelled `none`), and at angle π returns
`√(min(a_max_x, a_max_y) · junction_deviation) = √8 mm/s ≠ 0` for the
default limits. -/
theorem junction_limit_values_diverge :
    calculate_junction_vmax defaultSettings ⟨10, 0⟩ ⟨10, 0⟩ = none ∧
    calculate_junction_vmax defaultSettings ⟨10, 0⟩ ⟨-10, 0⟩ = some (Real.sqrt 8) ∧
    Real.sqrt 8 ≠ 0 := by
  refine ⟨jv_collinear, jv_reversal, ?_⟩
  positivity

/-- C2: the claim says the junction speed (mm/s) is converted to mm/min
before it is compared with the programmed feed.  At a right-angle corner
the code produces `√(8·√2)` mm/s and `estimate_time` (line 294) computes
`min(target_feed, junction_vmax)` with no `× 60` conversion; converting
first would change the resulting end-velocity target (feed 1200 mm/min
shown). -/
theorem junction_speed_compared_without_unit_conversion :
    calculate_junction_vmax defaultSettings ⟨10, 0⟩ ⟨0, 10⟩ =
      some (Real.sqrt (8 * Real.sqrt 2)) ∧
    min (1200 : ℝ) (Real.sqrt (8 * Real.sqrt 2)) ≠
      min (1200 : ℝ) (60 * Real.sqrt (8 * Real.sqrt 2)) := by
  refine ⟨jv_perp, ?_⟩
  have h2 : Real.sqrt 2 ^ 2 = 2 := Real.sq_sqrt (by norm_num)
  have h2nn : (0 : ℝ) ≤ Real.sqrt 2 := Real.sqrt_nonneg 2
  have hs2 : Real.sqrt 2 ≤ 2 := by nlinarith
  have hsp : (0 : ℝ) < Real.sqrt (8 * Real.sqrt 2) := by positivity
  have hsq : Real.sqrt (8 * Real.sqrt 2) ^ 2 = 8 * Real.sqrt 2 :=
    Real.sq_sqrt (by positivity)
  have hs4 : Real.sqrt (8 * Real.sqrt 2) ≤ 4 := by nlinarith
  rw [min_eq_right (by linarith), min_eq_right (by linarith)]
  intro h
  nlinarith

lemma mtc_caseA (v0 v1 vcap a L : ℝ)
    (h : (vcap ^ 2 - v0 ^ 2) / (2 * a) + (vcap ^ 2 - v1 ^ 2) / (2 * a) ≤ L) :
    motionTimeCore v0 v1 vcap a L =
      some ((vcap - v0) / a +
        (L - ((vcap ^ 2 - v0 ^ 2) / (2 * a) + (vcap ^ 2 - v1 ^ 2) / (2 * a))) / vcap +
        (vcap - v1) / a, v1) := by
  unfold motionTimeCore
  rw [if_pos h]

lemma mtc_caseB (v0 v1 vcap a L : ℝ) (ha : 0 < a) (hvc : 0 < vcap) (hL : 0 ≤ L)
    (hA : ¬ ((vcap ^ 2 - v0 ^ 2) / (2 * a) + (vcap ^ 2 - v1 ^ 2) / (2 * a) ≤ L)) :
    motionTimeCore v0 v1 vcap a L =
      some ((Real.sqrt ((v0 ^ 2 + v1 ^ 2) / 2 + a * L) - v0) / a +
            (Real.sqrt ((v0 ^ 2 + v1 ^ 2) / 2 + a * L) - v1) / a, v1) := by
  have hpsq : (0 : ℝ) ≤ (v0 ^ 2 + v1 ^ 2) / 2 + a * L :=
    add_nonneg (by positivity) (mul_nonneg ha.le hL)
  have hsq : Real.sqrt ((v0 ^ 2 + v1 ^ 2) / 2 + a * L) ^ 2 =
      (v0 ^ 2 + v1 ^ 2) / 2 + a * L := Real.sq_sqrt hpsq
  push_neg at hA
  have h2a : (0 : ℝ) < 2 * a := by linarith
  have hsum : L * (2 * a) < vcap ^ 2 - v0 ^ 2 + (vcap ^ 2 - v1 ^ 2) := by
    rw [div_add_div_same] at hA
    exact (lt_div_iff₀ h2a).mp hA
  have hlt : Real.sqrt ((v0 ^ 2 + v1 ^ 2) / 2 + a * L) < vcap := by
    rw [Real.sqrt_lt' hvc]
    nlinarith
  unfold motionTimeCore
  rw [if_neg (not_le.mpr hA)]
  dsimp only
  rw [if_neg (not_lt.mpr hpsq), if_neg (not_lt.mpr hlt.le), if_pos]
  rw [hsq]
  have hz : ((v0 ^ 2 + v1 ^ 2) / 2 + a * L - v0 ^ 2) / (2 * a) +
      ((v0 ^ 2 + v1 ^ 2) / 2 + a * L - v1 ^ 2) / (2 * a) - L = 0 := by
    field_simp
    ring
  rw [hz]
  norm_num

/-- C10: for non-negative start and end velocities, positive cruise cap and
acceleration, and non-negative distance, the trapezoidal solver's fallback
`raise ValueError` (modelled `none`) is unreachable: either the full
trapezoid fits, or the recomputed triangle distances sum exactly to the
distance (the peak `√((v0²+v1²)/2+aL)` lying below `v_cap`), so a value is
always returned. -/
theorem solver_fallback_unreachable (v0 v1 vcap a L : ℝ)
    (hv0 : 0 ≤ v0) (hv1 : 0 ≤ v1) (hvc : 0 < vcap) (ha : 0 < a) (hL : 0 ≤ L) :
    ∃ t ve, motionTimeCore v0 v1 vcap a L = some (t, ve) := by
  by_cases hA : (vcap ^ 2 - v0 ^ 2) / (2 * a) + (vcap ^ 2 - v1 ^ 2) / (2 * a) ≤ L
  · exact ⟨_, _, mtc_caseA v0 v1 vcap a L hA⟩
  · exact ⟨_, _, mtc_caseB v0 v1 vcap a L ha hvc hL hA⟩

/-- Witness for C10 at `(v0, v1, v_cap, a, L) = (0, 0, 1, 1, 0)`. -/
theorem solver_fallback_unreachable_w :
    ∃ t ve, motionTimeCore 0 0 1 1 0 = some (t, ve) :=
  solver_fallback_unreachable 0 0 1 1 0 (by norm_num) (by norm_num) (by norm_num)
    (by norm_num) (by norm_num)

lemma core_cx : motionTimeCore 0 6 6 2 (7 / 2) = some (2, 6) := by
  have hB := mtc_caseB 0 6 6 2 (7 / 2) (by norm_num) (by norm_num) (by norm_num)
    (by norm_num)
  rw [hB]
  have h25 : Real.sqrt (((0 : ℝ) ^ 2 + 6 ^ 2) / 2 + 2 * (7 / 2)) = 5 :=
    sqrtEval _ 5 (by norm_num) (by norm_num)
  rw [h25]
  norm_num

/-- C3 counterexample: a 3.5 mm motion entered at rest with commanded end
velocity 360 mm/min, cruise cap 360 mm/min and acceleration 2 mm/s²
(`v1 ≤ v_cap`, non-negative velocities and distance, `a > 0`) returns
time 2 s, yet `|v1 − v0| / a` is 180 in the raw mm/min figures and 3 in
the solver's internal mm/s — either way above 2, so the claimed bound
`time ≥ |v1 − v0| / a` fails. -/
theorem solver_time_bound_cx :
    calculate_motion_time ⟨7 / 2, 0⟩ 0 360 360 2 = some (2, 360) ∧
    ¬ (|(360 : ℝ) - 0| / 2 ≤ 2) ∧ ¬ (|(6 : ℝ) - 0| / 2 ≤ 2) := by
  refine ⟨?_, by rw [show |(360 : ℝ) - 0| = 360 by norm_num]; norm_num,
    by rw [show |(6 : ℝ) - 0| = 6 by norm_num]; norm_num⟩
  unfold calculate_motion_time
  rw [len_x0 (7 / 2) (by norm_num)]
  rw [show (((7 / 2 : ℚ)) : ℝ) = (7 / 2 : ℝ) from by norm_num]
  rw [show ((0 : ℝ) / 60) = 0 from by norm_num, show ((360 : ℝ) / 60) = 6 from by norm_num]
  rw [core_cx]
  simp only [Option.map_some']
  norm_num

/-- C3 amended: with `v1 ≤ v_cap`, non-negative velocities and distance
and `a > 0`, the returned time is always at least `L / v_cap`; the bound
`time ≥ |v1 − v0| / a` holds under the additional hypothesis
`|v1² − v0²| ≤ 2aL` (the commanded end velocity is kinematically
reachable), which the counterexample shows cannot be dropped. -/
theorem solver_time_lower_bounds (v0 v1 vcap a L t ve : ℝ)
    (hv0 : 0 ≤ v0) (hv1 : 0 ≤ v1) (hvc : 0 < vcap) (hv1c : v1 ≤ vcap)
    (ha : 0 < a) (hL : 0 ≤ L)
    (h : motionTimeCore v0 v1 vcap a L = some (t, ve)) :
    L / vcap ≤ t ∧ (|v1 ^ 2 - v0 ^ 2| ≤ 2 * a * L → |v1 - v0| / a ≤ t) := by
  by_cases hA : (vcap ^ 2 - v0 ^ 2) / (2 * a) + (vcap ^ 2 - v1 ^ 2) / (2 * a) ≤ L
  · rw [mtc_caseA v0 v1 vcap a L hA] at h
    have ht : t = (vcap - v0) / a +
        (L - ((vcap ^ 2 - v0 ^ 2) / (2 * a) + (vcap ^ 2 - v1 ^ 2) / (2 * a))) / vcap +
        (vcap - v1) / a := by
      have := (Option.some.injEq _ _).mp h
      exact (Prod.mk.injEq _ _ _ _).mp this.symm |>.1
    have key : t * (2 * a * vcap) = 2 * a * L + (vcap - v0) ^ 2 + (vcap - v1) ^ 2 := by
      rw [ht]
      field_simp
      ring
    constructor
    · rw [div_le_iff₀ hvc]
      nlinarith [sq_nonneg (vcap - v0), sq_nonneg (vcap - v1), mul_pos ha hvc]
    · intro hcond
      have habs := abs_le.mp hcond
      rw [div_le_iff₀ ha, abs_sub_le_iff]
      constructor
      · nlinarith [sq_nonneg (v1 - vcap), mul_pos ha hvc]
      · nlinarith [sq_nonneg (v0 - vcap), mul_pos ha hvc]
  · rw [mtc_caseB v0 v1 vcap a L ha hvc hL hA] at h
    set vp := Real.sqrt ((v0 ^ 2 + v1 ^ 2) / 2 + a * L) with hvpdef
    have hpsq : (0 : ℝ) ≤ (v0 ^ 2 + v1 ^ 2) / 2 + a * L :=
      add_nonneg (by positivity) (mul_nonneg ha.le hL)
    have hvp2 : vp ^ 2 = (v0 ^ 2 + v1 ^ 2) / 2 + a * L := Real.sq_sqrt hpsq
    have hvpnn : 0 ≤ vp := Real.sqrt_nonneg _
    have ht : t = (vp - v0) / a + (vp - v1) / a := by
      have := (Option.some.injEq _ _).mp h
      exact (Prod.mk.injEq _ _ _ _).mp this.symm |>.1
    have key2 : t * a = 2 * vp - v0 - v1 := by
      rw [ht]; field_simp; ring
    have hvple : vp ≤ vcap := by
      push_neg at hA
      have h2a : (0 : ℝ) < 2 * a := by linarith
      have hsum : L * (2 * a) < vcap ^ 2 - v0 ^ 2 + (vcap ^ 2 - v1 ^ 2) := by
        rw [div_add_div_same] at hA
        exact (lt_div_iff₀ h2a).mp hA
      have : vp < vcap := by
        rw [hvpdef, Real.sqrt_lt' hvc]
        nlinarith
      exact this.le
    have h2vp : v0 + v1 ≤ 2 * vp := by
      nlinarith [sq_nonneg (v0 - v1), sq_nonneg (2 * vp + (v0 + v1)),
        mul_nonneg ha.le hL]
    constructor
    · rw [div_le_iff₀ hvc]
      have hstep : a * L ≤ (2 * vp - v0 - v1) * vcap := by
        nlinarith [sq_nonneg (vp - v0), sq_nonneg (vp - v1),
          mul_le_mul_of_nonneg_left hvple (by linarith : (0 : ℝ) ≤ 2 * vp - v0 - v1)]
      nlinarith [mul_pos ha hvc]
    · intro hcond
      have habs := abs_le.mp hcond
      have hsq0 : v0 ^ 2 ≤ vp ^ 2 := by linarith [hvp2, habs.1]
      have hsq1 : v1 ^ 2 ≤ vp ^ 2 := by linarith [hvp2, habs.2]
      have hv0p : v0 ≤ vp := by
        have h1 := Real.sqrt_le_sqrt hsq0
        rwa [Real.sqrt_sq hv0, Real.sqrt_sq hvpnn] at h1
      have hv1p : v1 ≤ vp := by
        have h1 := Real.sqrt_le_sqrt hsq1
        rwa [Real.sqrt_sq hv1, Real.sqrt_sq hvpnn] at h1
      rw [div_le_iff₀ ha, abs_sub_le_iff]
      constructor <;> linarith

/-- Witness for C3's amended theorem at
`(v0, v1, v_cap, a, L, t, ve) = (0, 0, 1, 1, 1, 2, 0)`. -/
theorem solver_time_lower_bounds_w :
    (1 : ℝ) / 1 ≤ 2 ∧ (|(0 : ℝ) ^ 2 - 0 ^ 2| ≤ 2 * 1 * 1 → |(0 : ℝ) - 0| / 1 ≤ 2) :=
  solver_time_lower_bounds 0 0 1 1 1 2 0 (le_refl 0) (le_refl 0) (by norm_num)
    (by norm_num) (by norm_num) (by norm_num)
    (by rw [mtc_caseA 0 0 1 1 1 (by norm_num)]; norm_num)

lemma waitForSpot_fits_le (nice : ℕ) (obs : List ℕ) (last : Option ℕ) (k : ℕ)
    (rest : List ℕ) (h : waitForSpot nice last obs = (SendGate.fits k, rest)) :
    k ≤ nice := by
  induction obs generalizing last rest with
  | nil =>
    obtain ⟨h1, -⟩ := Prod.mk.injEq .. ▸ h
    exact absurd h1 (by simp)
  | cons o r ih =>
    unfold waitForSpot at h
    by_cases ho : o ≤ nice
    · rw [if_pos ho] at h
      obtain ⟨h1, -⟩ := Prod.mk.injEq .. ▸ h
      injection h1 with h2
      omega
    · rw [if_neg ho] at h
      exact ih (some o) rest h

/-- C6 counterexample: if the `running` flag drops while the worker is
waiting on the planner buffer (here after one poll at occupancy 18), the
inner loop exits without a satisfying observation and the dequeued `M3`
line is written anyway — at a last observed occupancy of 18, far above its
nice-size 2 — refuting the claim that an issue never happens while the
observed occupancy exceeds the command's nice-size. -/
theorem sender_stop_sends_above_nice_cx :
    senderLoop [m3cmd] [18] = [(m3cmd, SendGate.stopped (some 18))] ∧
    buffer_nice_size_for_command m3cmd = 2 ∧ ¬ ((18 : ℕ) ≤ 2) := by
  refine ⟨by decide, by decide, by decide⟩

/-- C6 amended: whenever the wait loop itself releases a command — the
`running` flag stayed up and an occupancy observation broke the wait — the
occupancy observed at the send is at most the command's nice-size, 16 in
general and 2 for commands whose stripped text starts with `M3`.  On the
flag-drop path the command is written without that guarantee. -/
theorem sender_nice_size_while_running (queue : List String) (obs : List ℕ)
    (c : String) (k : ℕ)
    (hmem : (c, SendGate.fits k) ∈ senderLoop queue obs) :
    k ≤ buffer_nice_size_for_command c ∧
    (startsL (r"M3".data) (stripL c.data) = true → k ≤ 2) := by
  induction queue generalizing obs with
  | nil => simp [senderLoop] at hmem
  | cons c0 cs ih =>
    unfold senderLoop at hmem
    cases hw : waitForSpot (buffer_nice_size_for_command c0) none obs with
    | mk g rest =>
      rw [hw] at hmem
      cases g with
      | fits k0 =>
        simp only at hmem
        rcases List.mem_cons.mp hmem with heq | hmem2
        · obtain ⟨rfl, h2⟩ := Prod.mk.injEq .. ▸ heq
          injection h2 with h3
          subst h3
          have hk := waitForSpot_fits_le _ obs none _ _ hw
          refine ⟨hk, fun hm3 => ?_⟩
          unfold buffer_nice_size_for_command at hk
          rw [if_pos hm3] at hk
          exact hk
        · exact ih _ hmem2
      | stopped last =>
        simp only at hmem
        rcases List.mem_cons.mp hmem with heq | hmem2
        · obtain ⟨rfl, h2⟩ := Prod.mk.injEq .. ▸ heq
          exact absurd h2 (by simp)
        · simp at hmem2

/-- Witness for C6's amended theorem on the specification's scenario:
occupancies `[18, 10, 3, 1]` and the barrier command, issued at
occupancy 1. -/
theorem sender_nice_size_while_running_w :
    1 ≤ buffer_nice_size_for_command m3cmd ∧
    (startsL (r"M3".data) (stripL m3cmd.data) = true → 1 ≤ 2) :=
  sender_nice_size_while_running [m3cmd] [18, 10, 3, 1] m3cmd 1 (by decide)

lemma getD_zero (rs : List String) : rs.headD emptyS = rs.getD 0 emptyS := by
  cases rs <;> rfl

lemma getD_tail (rs : List String) (i : ℕ) :
    rs.tail.getD i emptyS = rs.getD (i + 1) emptyS := by
  cases rs <;> rfl

lemma commandGo_ok_iff (n : ℕ) (rs : List String) :
    commandGo n rs = DevOutcome.okDone ↔
      ∃ i < n, stripS (rs.getD i emptyS) = "ok" := by
  induction n generalizing rs with
  | zero => simp [commandGo]
  | succ n ih =>
    unfold commandGo
    by_cases hok : stripS (rs.headD emptyS) = "ok"
    · rw [if_pos hok]
      simp only [true_iff]
      exact ⟨0, Nat.succ_pos n, by rwa [← getD_zero]⟩
    · rw [if_neg hok, ih rs.tail]
      constructor
      · rintro ⟨i, hi, h⟩
        exact ⟨i + 1, Nat.succ_lt_succ hi, by rwa [getD_tail] at h⟩
      · rintro ⟨i, hi, h⟩
        cases i with
        | zero => exact absurd (by rwa [getD_zero]) hok
        | succ j => exact ⟨j, Nat.lt_of_succ_lt_succ hi, by rwa [getD_tail]⟩

lemma commandGo_cases (n : ℕ) (rs : List String) :
    commandGo n rs = DevOutcome.okDone ∨ commandGo n rs = DevOutcome.timeoutQuit := by
  induction n generalizing rs with
  | zero => exact Or.inr rfl
  | succ n ih =>
    unfold commandGo
    by_cases hok : stripS (rs.headD emptyS) = "ok"
    · rw [if_pos hok]; exact Or.inl rfl
    · rw [if_neg hok]; exact ih rs.tail

lemma queryGo_none_iff (n : ℕ) (rs : List String) (acc : List String) :
    queryGo n rs acc = DevOutcome.pyNone ↔
      ¬ ∃ i < n, stripS (rs.getD i emptyS) = "ok" := by
  induction n generalizing rs acc with
  | zero => simp [queryGo]
  | succ n ih =>
    unfold queryGo
    by_cases hok : stripS (rs.headD emptyS) = "ok"
    · simp only [hok, if_pos rfl]
      constructor
      · intro h; exact absurd h (by simp)
      · intro h
        exact absurd ⟨0, Nat.succ_pos n, by rwa [← getD_zero]⟩ h
    · rw [if_neg hok, ih rs.tail]
      constructor
      · intro h hex
        obtain ⟨i, hi, hv⟩ := hex
        cases i with
        | zero => exact hok (by rwa [getD_zero])
        | succ j => exact h ⟨j, Nat.lt_of_succ_lt_succ hi, by rwa [getD_tail]⟩
      · intro h hex
        obtain ⟨i, hi, hv⟩ := hex
        exact h ⟨i + 1, Nat.succ_lt_succ hi, by rwa [getD_tail] at hv⟩

/-- C7 amended: within the budget of `timeout × 5 = 500` reads, `command`
returns successfully exactly when some read strips to `ok` (so non-empty
non-`ok` lines never break the wait), and otherwise reports the timeout
(printing and calling `sys.exit()`); `query`, however, does not fail with
a Timeout error on budget exhaustion — it falls off its loop and returns
Python `None`. -/
theorem controller_read_budget (reads : List String) :
    (commandModel reads = DevOutcome.okDone ↔
      ∃ i < deviceTimeout * 5, stripS (reads.getD i emptyS) = "ok") ∧
    (commandModel reads = DevOutcome.timeoutQuit ↔
      ¬ ∃ i < deviceTimeout * 5, stripS (reads.getD i emptyS) = "ok") ∧
    (queryModel reads = DevOutcome.pyNone ↔
      ¬ ∃ i < deviceTimeout * 5, stripS (reads.getD i emptyS) = "ok") := by
  unfold commandModel queryModel
  refine ⟨commandGo_ok_iff _ reads, ?_, queryGo_none_iff _ reads []⟩
  rcases commandGo_cases (deviceTimeout * 5) reads with h | h
  · rw [h]
    constructor
    · intro hq; exact absurd hq (by decide)
    · intro hq; exact absurd ((commandGo_ok_iff _ reads).mp h) hq
  · rw [h]
    constructor
    · intro _ hex
      have hok2 := (commandGo_ok_iff (deviceTimeout * 5) reads).mpr hex
      rw [h] at hok2
      exact absurd hok2 (by decide)
    · intro _; rfl

/-- C7 counterexample: a stream of 500 non-`ok` reads exhausts `query`'s
budget, and the outcome is the silent `None` return, not the Timeout
failure the claim asserts for `query`. -/
theorem query_timeout_cx :
    queryModel (List.replicate 500 (r"x")) = DevOutcome.pyNone ∧
    DevOutcome.pyNone ≠ DevOutcome.timeoutQuit := by
  constructor
  · unfold queryModel
    rw [queryGo_none_iff]
    rintro ⟨i, hi, hv⟩
    have hi' : i < 500 := by simpa [deviceTimeout] using hi
    rw [List.getD_eq_getElem?_getD, List.getElem?_replicate, if_pos hi'] at hv
    simp only [Option.getD_some] at hv
    exact absurd hv (by decide)
  · decide

lemma charOfNat_small (n : ℕ) (h : n < 123) : (Char.ofNat n).toNat = n := by
  revert h
  revert n
  decide

lemma pyLowC_ne_U (c : Char) : pyLowC c ≠ 'U' := by
  unfold pyLowC
  split
  · rename_i hc
    intro h
    have h85 : (Char.ofNat (c.toNat + 32)).toNat = 'U'.toNat := by rw [h]
    rw [charOfNat_small (c.toNat + 32) (by omega)] at h85
    have : 'U'.toNat = 85 := by decide
    omega
  · rename_i hc
    intro h
    apply hc
    rw [h]
    exact ⟨by decide, by decide⟩

lemma startsL_mem (p : List Char) :
    ∀ l, startsL p l = true → ∀ c ∈ p, c ∈ l := by
  induction p with
  | nil => intro l _ c hc; simp at hc
  | cons a as ih =>
    intro l h c hc
    cases l with
    | nil => simp [startsL] at h
    | cons b bs =>
      simp only [startsL, Bool.and_eq_true, beq_iff_eq] at h
      rcases List.mem_cons.mp hc with rfl | hcs
      · rw [h.1]; exact List.mem_cons_self b bs
      · exact List.mem_cons_of_mem b (ih bs h.2 c hcs)

lemma listHas_mem (needle : List Char) :
    ∀ hay, listHas needle hay = true → ∀ c ∈ needle, c ∈ hay := by
  intro hay
  induction hay with
  | nil =>
    intro h c hc
    unfold listHas at h
    exact absurd (startsL_mem needle [] h c hc) (List.not_mem_nil c)
  | cons b bs ih =>
    intro h c hc
    unfold listHas at h
    rcases Bool.or_eq_true _ _ |>.mp h with h1 | h2
    · exact startsL_mem needle (b :: bs) h1 c hc
    · exact List.mem_cons_of_mem b (ih h2 c hc)

lemma lower_no_ttyusb (l : List Char) :
    listHas (r"ttyUSB".data) (lowerL l) = false := by
  by_contra h
  have ht : listHas (r"ttyUSB".data) (lowerL l) = true := by
    revert h
    cases listHas (r"ttyUSB".data) (lowerL l) <;> simp
  have hU : 'U' ∈ lowerL l :=
    listHas_mem _ _ ht 'U' (by decide)
  obtain ⟨c, _, hc⟩ := List.mem_map.mp hU
  exact pyLowC_ne_U c hc

/-- C8 counterexample: the claim says a port with device path
`/dev/ttyUSB0` is a candidate; the probe lowercases the device path before
testing for the mixed-case literal `"ttyUSB"`, so this port (description
lacking "usb"/"arduino") is rejected. -/
theorem compat_ttyusb_cx : is_compatible_device ttyUsbPort = false := by decide

/-- C8 amended: a port is a candidate if and only if its description
contains "usb" or "arduino" (case-insensitive) or its device path
contains "arduino" (case-insensitive); the `'ttyUSB' in device.lower()`
test can never succeed, because a lowercased string contains no `'U'`. -/
theorem compat_characterization (p : PortInfo) :
    is_compatible_device p =
      (listHas (r"usb".data) (lowerL p.description.data) ||
       listHas (r"arduino".data) (lowerL p.description.data) ||
       listHas (r"arduino".data) (lowerL p.device.data)) := by
  unfold is_compatible_device
  dsimp only
  rw [lower_no_ttyusb p.device.data]
  simp [Bool.or_false]

lemma len00 : PtQ.length ⟨0, 0⟩ = 0 := lenEval 0 0 0 (le_refl 0) (by norm_num)

lemma jv_zero_next (s : GrblSettings) (m : PtQ) :
    calculate_junction_vmax s m ⟨0, 0⟩ = some 0 := by
  unfold calculate_junction_vmax
  rw [if_pos (Or.inr len00)]

lemma msam_x0 (c : ℚ) (hc : 0 < c) :
    max_speed_along_motion defaultSettings ⟨c, 0⟩ = 3000 := by
  unfold max_speed_along_motion
  dsimp only
  rw [normX_x0 c hc, normY_x0 c, abs_one, abs_zero, max_eq_left (by norm_num : (0:ℝ) ≤ 1)]
  simp only [defaultSettings]
  rw [show ((3000:ℝ) * 1 / 1) ^ 2 + (3000 * 0 / 1) ^ 2 = 3000 ^ 2 by norm_num]
  exact Real.sqrt_sq (by norm_num)

lemma msam_0y (c : ℚ) (hc : 0 < c) :
    max_speed_along_motion defaultSettings ⟨0, c⟩ = 3000 := by
  unfold max_speed_along_motion
  dsimp only
  rw [normX_0y c, normY_0y c hc, abs_one, abs_zero, max_eq_right (by norm_num : (0:ℝ) ≤ 1)]
  simp only [defaultSettings]
  rw [show ((3000:ℝ) * 0 / 1) ^ 2 + (3000 * 1 / 1) ^ 2 = 3000 ^ 2 by norm_num]
  exact Real.sqrt_sq (by norm_num)

lemma maam_x0 (c : ℚ) (hc : 0 < c) :
    max_accel_along_motion defaultSettings ⟨c, 0⟩ = 800 := by
  unfold max_accel_along_motion
  dsimp only
  rw [normX_x0 c hc, normY_x0 c, abs_one, abs_zero, max_eq_left (by norm_num : (0:ℝ) ≤ 1)]
  simp only [defaultSettings]
  rw [show ((800:ℝ) * 1 / 1) ^ 2 + (800 * 0 / 1) ^ 2 = 800 ^ 2 by norm_num]
  exact Real.sqrt_sq (by norm_num)

lemma maam_0y (c : ℚ) (hc : 0 < c) :
    max_accel_along_motion defaultSettings ⟨0, c⟩ = 800 := by
  unfold max_accel_along_motion
  dsimp only
  rw [normX_0y c, normY_0y c hc, abs_one, abs_zero, max_eq_right (by norm_num : (0:ℝ) ≤ 1)]
  simp only [defaultSettings]
  rw [show ((800:ℝ) * 0 / 1) ^ 2 + (800 * 1 / 1) ^ 2 = 800 ^ 2 by norm_num]
  exact Real.sqrt_sq (by norm_num)

lemma processLine_motion_eval (s : GrblSettings) (st : SimState) (raw u : List Char)
    (nxt : Option (List Char)) (pr : PtQ × ℝ) (np : PtQ) (m m2 : PtQ)
    (jv tf : ℝ) (res : ℝ × ℝ)
    (hu : upperL (stripL raw) = u)
    (hne : u ≠ [])
    (hnc : (startsL ([';']) u || startsL (['(']) u) = false)
    (hm : is_motion_command u = true)
    (hp : parse_coord u st.position st.velocity = some pr)
    (hnp : nextPosOf pr.1 pr.2 nxt = some np)
    (hmv : PtQ.sub pr.1 st.position = m)
    (hm2 : PtQ.sub np pr.1 = m2)
    (hlen : PtQ.length m ≠ 0)
    (hjv : calculate_junction_vmax s m m2 = some jv)
    (htf : (if is_rapid_motion_command u || pr.2 ≤ 0 then
             max_speed_along_motion s m else min pr.2 (max_speed_along_motion s m)) = tf)
    (hres : calculate_motion_time m st.velocity (min tf jv) tf
      (max_accel_along_motion s m) = some res)
    (hreal : ¬ (res.2 - min tf jv < -(1 / 1000000 : ℝ))) :
    processLine s st raw nxt = some
      { position := pr.1, velocity := res.2, totalTime := st.totalTime + res.1
        bounds := st.bounds.update pr.1, feeds := st.feeds ++ [tf] } := by
  unfold processLine
  rw [hu, if_neg hne, if_neg (by simp [hnc]), if_pos hm, hp]
  simp only [Option.some_bind]
  rw [hnp]
  simp only [Option.some_bind]
  rw [hmv, hm2, if_neg hlen, htf, hjv]
  simp only [Option.some_bind]
  rw [hres]
  simp only [Option.some_bind]
  rw [if_neg hreal]

lemma c4_parse :
    parse_coord ((r"G0 X100 Y0").data) ⟨0, 0⟩ 0 = some (⟨100, 0⟩, (0 : ℝ)) := by
  unfold parse_coord
  dsimp only
  rw [show coordVal 'X' ((r"G0 X100 Y0").data) (0 : ℚ) = some 100 from by decide]
  rw [show coordVal 'Y' ((r"G0 X100 Y0").data) (0 : ℚ) = some 0 from by decide]
  rw [show findTok 'F' ((r"G0 X100 Y0").data) = none from by decide]
  simp only [Option.some_bind, Option.map_some']

lemma c4_solver :
    calculate_motion_time ⟨100, 0⟩ 0 (min (3000 : ℝ) 0) 3000
      (max_accel_along_motion defaultSettings ⟨100, 0⟩) = some ((33 / 16 : ℝ), 0) := by
  rw [maam_x0 100 (by norm_num), min_eq_right (by norm_num : (0:ℝ) ≤ 3000)]
  unfold calculate_motion_time
  rw [len_x0 100 (by norm_num)]
  rw [show ((0 : ℝ) / 60) = 0 from by norm_num, show ((3000 : ℝ) / 60) = 50 from by norm_num]
  rw [mtc_caseA 0 0 50 800 ((100 : ℚ) : ℝ) (by push_cast; norm_num)]
  simp only [Option.map_some']
  push_cast
  norm_num

lemma c4_step :
    processLine defaultSettings initSimState ((r"G0 X100 Y0").data) none = some
      { position := ⟨100, 0⟩, velocity := (0 : ℝ)
        totalTime := initSimState.totalTime + 33 / 16
        bounds := initSimState.bounds.update ⟨100, 0⟩
        feeds := initSimState.feeds ++ [3000] } := by
  refine processLine_motion_eval defaultSettings initSimState _ _ none
    (⟨100, 0⟩, (0 : ℝ)) ⟨100, 0⟩ ⟨100, 0⟩ ⟨0, 0⟩ 0 3000 ((33 / 16 : ℝ), 0)
    (by decide) (by decide) (by decide) (by decide) c4_parse rfl
    (by norm_num [PtQ.sub, initSimState]) (by norm_num [PtQ.sub])
    (len_x0_ne 100 (by norm_num)) (jv_zero_next _ _) ?_ c4_solver (by norm_num)
  rw [show is_rapid_motion_command ((r"G0 X100 Y0").data) = true from by decide]
  simp only [Bool.true_or, if_true]
  exact msam_x0 100 (by norm_num)

lemma c4_eval : estimate_time defaultSettings c4prog =
    some ((33 / 16 : ℝ), ⟨(100 : ℚ), (100 : ℚ), (0 : ℚ), (0 : ℚ)⟩) := by
  unfold estimate_time estimate_lines
  rw [show splitNL (stripL c4prog.data) = [(r"G0 X100 Y0").data] from by decide]
  simp only [processLines, processLinesFrom, headOr]
  rw [c4_step]
  simp only [Option.some_bind, Option.map_some']
  norm_num [initSimState, BoundsQ.update, BoundsQ.start]

/-- C4 counterexample: the claim expects bounds `(0, 100, 0, 0)` for
`G0 X100 Y0`, but `estimate_time` only feeds target positions into
`Bounds.update` — the origin is never included — so `min_x = 100`, not 0
(and the width is 0, not 100).  The time `33/16 = 2.0625 s` matches. -/
theorem single_rapid_bounds_cx :
    estimate_time defaultSettings c4prog =
      some ((33 / 16 : ℝ), ⟨(100 : ℚ), (100 : ℚ), (0 : ℚ), (0 : ℚ)⟩) ∧
    ((100 : ℚ) : WithTop ℚ) ≠ ((0 : ℚ) : WithTop ℚ) :=
  ⟨c4_eval, by decide⟩

/-- C4 amended: `G0 X100 Y0` under the default limits gives total time
`33/16 = 2.0625` seconds and bounds `(100, 100, 0, 0)` (only the visited
target position enters the bounds; width and height are 0). -/
theorem single_rapid_scenario :
    estimate_time defaultSettings c4prog =
      some ((33 / 16 : ℝ), ⟨(100 : ℚ), (100 : ℚ), (0 : ℚ), (0 : ℚ)⟩) :=
  c4_eval

lemma c5_parse1 :
    parse_coord ((r"G1 X30 Y0 F600").data) ⟨0, 0⟩ 0 = some (⟨30, 0⟩, (600 : ℝ)) := by
  unfold parse_coord
  dsimp only
  rw [show coordVal 'X' ((r"G1 X30 Y0 F600").data) (0 : ℚ) = some 30 from by decide]
  rw [show coordVal 'Y' ((r"G1 X30 Y0 F600").data) (0 : ℚ) = some 0 from by decide]
  rw [show findTok 'F' ((r"G1 X30 Y0 F600").data) = some ((r"600").data) from by decide]
  dsimp only
  rw [show pyFloatQ ((r"600").data) = some 600 from by decide]
  simp only [Option.some_bind, Option.map_some']
  norm_num

lemma c5_next1 :
    nextPosOf ⟨30, 0⟩ (600 : ℝ) (some ((r"G4 P1").data)) = some ⟨30, 0⟩ := by
  unfold nextPosOf
  dsimp only
  rw [show upperL (stripL ((r"G4 P1").data)) = (r"G4 P1").data from by decide]
  rw [if_neg (by decide), if_neg (by decide)]

lemma c5_solver1 :
    calculate_motion_time ⟨30, 0⟩ 0 (min (600 : ℝ) 0) 600
      (max_accel_along_motion defaultSettings ⟨30, 0⟩) = some ((241 / 80 : ℝ), 0) := by
  rw [maam_x0 30 (by norm_num), min_eq_right (by norm_num : (0 : ℝ) ≤ 600)]
  unfold calculate_motion_time
  rw [len_x0 30 (by norm_num)]
  rw [show ((0 : ℝ) / 60) = 0 from by norm_num, show ((600 : ℝ) / 60) = 10 from by norm_num]
  rw [mtc_caseA 0 0 10 800 ((30 : ℚ) : ℝ) (by push_cast; norm_num)]
  simp only [Option.map_some']
  push_cast
  norm_num

lemma c5_step1 :
    processLine defaultSettings initSimState ((r"G1 X30 Y0 F600").data)
      (some ((r"G4 P1").data)) = some
      { position := ⟨30, 0⟩, velocity := (0 : ℝ)
        totalTime := initSimState.totalTime + 241 / 80
        bounds := initSimState.bounds.update ⟨30, 0⟩
        feeds := initSimState.feeds ++ [600] } := by
  refine processLine_motion_eval defaultSettings initSimState _ _ _
    (⟨30, 0⟩, (600 : ℝ)) ⟨30, 0⟩ ⟨30, 0⟩ ⟨0, 0⟩ 0 600 ((241 / 80 : ℝ), 0)
    (by decide) (by decide) (by decide) (by decide) c5_parse1 c5_next1
    (by norm_num [PtQ.sub, initSimState]) (by norm_num [PtQ.sub])
    (len_x0_ne 30 (by norm_num)) (jv_zero_next _ _) ?_ c5_solver1 (by norm_num)
  rw [show is_rapid_motion_command ((r"G1 X30 Y0 F600").data) = false from by decide]
  simp only [Bool.false_or, decide_eq_true_eq]
  rw [if_neg (by norm_num : ¬ ((600 : ℝ) ≤ 0)), msam_x0 30 (by norm_num)]
  exact min_eq_left (by norm_num)

lemma c5_step2 (st : SimState) :
    processLine defaultSettings st ((r"G4 P1").data) (some ((r"G1 X30 Y40").data)) =
      some { st with totalTime := st.totalTime + 1 } := by
  unfold processLine
  rw [show upperL (stripL ((r"G4 P1").data)) = (r"G4 P1").data from by decide]
  rw [if_neg (by decide), if_neg (by decide), if_neg (by decide), if_pos (by decide)]
  rw [show parse_dwell ((r"G4 P1").data) = some (1 : ℝ) from by
    unfold parse_dwell
    rw [show findTok 'P' ((r"G4 P1").data) = some ((r"1").data) from by decide]
    dsimp only
    rw [show pyFloatQ ((r"1").data) = some 1 from by decide]
    simp only [Option.map_some']
    norm_num]
  simp only [Option.some_bind]

lemma c5_parse3 :
    parse_coord ((r"G1 X30 Y40").data) ⟨30, 0⟩ (0 : ℝ) = some (⟨30, 40⟩, (0 : ℝ)) := by
  unfold parse_coord
  dsimp only
  rw [show coordVal 'X' ((r"G1 X30 Y40").data) (30 : ℚ) = some 30 from by decide]
  rw [show coordVal 'Y' ((r"G1 X30 Y40").data) (0 : ℚ) = some 40 from by decide]
  rw [show findTok 'F' ((r"G1 X30 Y40").data) = none from by decide]
  simp only [Option.some_bind, Option.map_some']

lemma c5_solver3 :
    calculate_motion_time ⟨0, 40⟩ 0 (min (3000 : ℝ) 0) 3000
      (max_accel_along_motion defaultSettings ⟨0, 40⟩) = some ((69 / 80 : ℝ), 0) := by
  rw [maam_0y 40 (by norm_num), min_eq_right (by norm_num : (0 : ℝ) ≤ 3000)]
  unfold calculate_motion_time
  rw [len_0y 40 (by norm_num)]
  rw [show ((0 : ℝ) / 60) = 0 from by norm_num, show ((3000 : ℝ) / 60) = 50 from by norm_num]
  rw [mtc_caseA 0 0 50 800 ((40 : ℚ) : ℝ) (by push_cast; norm_num)]
  simp only [Option.map_some']
  push_cast
  norm_num

lemma c5_step3 (st : SimState) (hpos : st.position = ⟨30, 0⟩) (hvel : st.velocity = 0) :
    processLine defaultSettings st ((r"G1 X30 Y40").data) none = some
      { position := ⟨30, 40⟩, velocity := (0 : ℝ)
        totalTime := st.totalTime + 69 / 80
        bounds := st.bounds.update ⟨30, 40⟩
        feeds := st.feeds ++ [3000] } := by
  refine processLine_motion_eval defaultSettings st _ ((r"G1 X30 Y40").data) none
    (⟨30, 40⟩, (0 : ℝ)) ⟨30, 40⟩ ⟨0, 40⟩ ⟨0, 0⟩ 0 3000 ((69 / 80 : ℝ), 0)
    (by decide) (by decide) (by decide) (by decide)
    (by rw [hpos, hvel]; exact c5_parse3) rfl
    (by rw [hpos]; norm_num [PtQ.sub]) (by norm_num [PtQ.sub])
    (len_0y_ne 40 (by norm_num)) (jv_zero_next _ _) ?_
    (by rw [hvel]; exact c5_solver3) (by norm_num)
  rw [show is_rapid_motion_command ((r"G1 X30 Y40").data) = false from by decide]
  simp only [Bool.false_or, decide_eq_true_eq]
  rw [if_pos (le_refl (0 : ℝ))]
  exact msam_0y 40 (by norm_num)

lemma c5_feeds_eval : estimate_feeds defaultSettings c5prog = some [(600 : ℝ), 3000] := by
  unfold estimate_feeds
  rw [show splitNL (stripL c5prog.data) =
    [(r"G1 X30 Y0 F600").data, (r"G4 P1").data, (r"G1 X30 Y40").data] from by decide]
  simp only [processLines, processLinesFrom, headOr]
  rw [c5_step1]
  simp only [Option.some_bind]
  rw [c5_step2]
  simp only [Option.some_bind]
  rw [c5_step3 _ rfl rfl]
  simp only [Option.some_bind, Option.map_some']
  norm_num [initSimState]

/-- C5: the claim says a motion with no `F` word inherits the stored
programmed feed and that the stored feed is not conflated with the end
velocity.  `estimate_time` passes its running `velocity` into
`_parse_coord`'s feed slot and keeps no programmed-feed state: after
`G1 X30 Y0 F600` (programmed feed 600, end velocity 0) and a dwell, the
feedless `G1 X30 Y40` sees feed `0` and therefore runs at the rapid cap
3000 mm/min instead of the programmed 600 mm/min. -/
theorem missing_feed_inherits_velocity :
    estimate_feeds defaultSettings c5prog = some [(600 : ℝ), 3000] ∧ (3000 : ℝ) ≠ 600 :=
  ⟨c5_feeds_eval, by norm_num⟩

lemma startsL_head (a : Char) (p : List Char) (c : Char) (cs : List Char)
    (h : startsL (a :: p) (c :: cs) = true) : a = c := by
  simp only [startsL, Bool.and_eq_true, beq_iff_eq] at h
  exact h.1

lemma motion_head (c : Char) (cs : List Char)
    (hm : is_motion_command (c :: cs) = true) : c = 'G' := by
  unfold is_motion_command at hm
  rcases (Bool.or_eq_true _ _).mp hm with h | h
  · rcases (Bool.or_eq_true _ _).mp h with h | h
    · rcases (Bool.or_eq_true _ _).mp h with h | h
      · exact (startsL_head _ _ _ _ h).symm
      · exact (startsL_head _ _ _ _ h).symm
    · exact (startsL_head _ _ _ _ h).symm
  · exact (startsL_head _ _ _ _ h).symm

lemma motion_not_comment (u : List Char) (hm : is_motion_command u = true) :
    ¬ ((startsL ([';']) u || startsL (['(']) u) = true) := by
  cases u with
  | nil => exact absurd hm (by decide)
  | cons c cs =>
    have hc := motion_head c cs hm
    subst hc
    simp [startsL]

lemma motion_nonempty (u : List Char) (hm : is_motion_command u = true) : u ≠ [] := by
  intro h
  rw [h] at hm
  exact absurd hm (by decide)

lemma processLine_zero_motion (s : GrblSettings) (st : SimState) (l : List Char)
    (nxt : Option (List Char))
    (hm : is_motion_command (upperL (stripL l)) = true)
    (hp : ∃ f, parse_coord (upperL (stripL l)) st.position st.velocity =
      some (st.position, f)) :
    processLine s st l nxt = none := by
  obtain ⟨f, hp⟩ := hp
  unfold processLine
  rw [if_neg (motion_nonempty _ hm), if_neg (motion_not_comment _ hm), if_pos hm, hp]
  simp only [Option.some_bind]
  cases hnp : nextPosOf (st.position, f).1 (st.position, f).2 nxt with
  | none => rfl
  | some np =>
    simp only [Option.some_bind]
    rw [show PtQ.sub (st.position, f).1 st.position = ⟨0, 0⟩ from by
      simp [PtQ.sub]]
    rw [if_pos len00]

lemma headOr_append (rest ys : List (List Char)) (k : Option (List Char)) :
    headOr (rest ++ ys) k = headOr rest (headOr ys k) := by
  cases rest <;> rfl

lemma processLinesFrom_append (s : GrblSettings) (xs ys : List (List Char))
    (st : SimState) (k : Option (List Char)) :
    processLinesFrom s st (xs ++ ys) k =
      (processLinesFrom s st xs (headOr ys k)).bind fun st' =>
        processLinesFrom s st' ys k := by
  induction xs generalizing st with
  | nil => simp [processLinesFrom]
  | cons l rest ih =>
    simp only [List.cons_append, processLinesFrom, List.append_eq]
    rw [headOr_append rest ys k]
    cases hpl : processLine s st l (headOr rest (headOr ys k)) with
    | none => simp
    | some st2 =>
      simp only [Option.some_bind]
      exact ih st2

/-- C9: if the estimator's loop reaches a motion line whose parsed target
equals the current position (a zero-length motion vector), the whole
estimate fails — `motion.normalize()` divides by the zero length — rather
than treating the segment as zero-time. -/
theorem zero_length_motion_fails (s : GrblSettings) (xs ys : List (List Char))
    (l : List Char) (st : SimState)
    (hrun : processLinesFrom s initSimState xs (some l) = some st)
    (hm : is_motion_command (upperL (stripL l)) = true)
    (hp : ∃ f, parse_coord (upperL (stripL l)) st.position st.velocity =
      some (st.position, f)) :
    estimate_lines s (xs ++ l :: ys) = none := by
  unfold estimate_lines processLines
  rw [processLinesFrom_append s xs (l :: ys) initSimState none]
  rw [show headOr (l :: ys) none = some l from rfl, hrun]
  simp only [Option.some_bind, processLinesFrom]
  rw [processLine_zero_motion s st l (headOr ys none) hm hp]
  rfl

/-- Witness for C9: the single-line program `G1 X0 Y0` repeats the initial
position `(0, 0)` and the estimate fails. -/
theorem zero_length_motion_fails_w :
    estimate_lines defaultSettings ([] ++ c9line :: []) = none := by
  refine zero_length_motion_fails defaultSettings [] [] c9line initSimState rfl
    (by decide) ⟨0, ?_⟩
  show parse_coord (upperL (stripL c9line)) ⟨0, 0⟩ 0 = some (⟨0, 0⟩, 0)
  rw [show upperL (stripL c9line) = c9line from by decide]
  unfold parse_coord
  dsimp only
  rw [show coordVal 'X' c9line (0 : ℚ) = some 0 from by decide]
  rw [show coordVal 'Y' c9line (0 : ℚ) = some 0 from by decide]
  rw [show findTok 'F' c9line = none from by decide]
  simp only [Option.some_bind, Option.map_some']
